import Mathlib

set_option maxRecDepth 8000

/-!
Verification of the `contained` container-engine client (`src/docker_client.rs`,
`src/lib.rs`) against its natural-language specification.

The wire data is modelled as lists of bytes (`List Nat`, each element a value
0..255).  A socket is modelled by `MStream`: the list of byte segments that
successive `read(2)` calls deliver, plus an optional I/O-error code that a read
raises once the segments are exhausted (`none` means clean EOF, i.e. reads
return 0 bytes).  The fixed 1024-byte read buffer of the Rust code
(`BUFFER_SIZE`) is a `List Nat` of length 1024, zero-initialised exactly as
`[0; BUFFER_SIZE]` is.

The `httparse` library calls (`Response::parse` over the *entire* buffer,
trailing zeros included) are modelled by `httparseResponse` below: it returns
`complete` when a full header block is present and well formed, `incomplete`
(httparse's `Partial`) when the whole buffer is a valid proper prefix of a
response, and `err` otherwise — in particular a NUL byte (the zero padding of
the unfilled buffer) is not valid anywhere in a status line or header block,
matching httparse, which rejects it in every position.
-/

/-- String literal to byte list (ASCII). -/
def bytes (s : String) : List Nat := s.toList.map Char.toNat

/-- A socket endpoint: segments delivered by successive reads, then EOF or an
I/O error (`fail = some e`). -/
structure MStream where
  segs : List (List Nat)
  fail : Option Nat
deriving DecidableEq, Repr

/-- I/O outcomes of `Read` calls: a clean end-of-file surfaced by
`read_exact` as `ErrorKind::UnexpectedEof`, or any other I/O error. -/
inductive IOE
  | eof
  | other (e : Nat)
deriving DecidableEq, Repr

/-- One `stream.read(&mut buffer[..cap])` call: on an empty slice it returns 0
bytes without touching the socket; otherwise it delivers up to `cap` bytes of
the front segment, leaving the remainder of the segment for the next read;
with all segments exhausted it returns 0 bytes at EOF or raises the error. -/
def msRead (s : MStream) (cap : Nat) : Except IOE (List Nat × MStream) :=
  if cap = 0 then .ok ([], s)
  else
    match s.segs with
    | [] =>
      match s.fail with
      | some e => .error (.other e)
      | none => .ok ([], s)
    | seg :: rest =>
      let d := seg.take cap
      let r := seg.drop cap
      .ok (d, ⟨if r.isEmpty then rest else r :: rest, s.fail⟩)

/-- Worker for `read_exact`: consume segments until `k` bytes are gathered.
A read that returns 0 bytes before the buffer is filled surfaces
`UnexpectedEof`; an I/O error at the socket propagates. -/
def goReadExact (k : Nat) (segs : List (List Nat)) (fail : Option Nat)
    (acc : List Nat) : Except IOE (List Nat × List (List Nat)) :=
  if k = 0 then .ok (acc, segs)
  else
    match segs with
    | [] =>
      match fail with
      | some e => .error (.other e)
      | none => .error .eof
    | seg :: rest =>
      if seg.isEmpty then .error .eof
      else if k ≤ seg.length then
        let r := seg.drop k
        .ok (acc ++ seg.take k, if r.isEmpty then rest else r :: rest)
      else goReadExact (k - seg.length) rest fail (acc ++ seg)

/-- `stream.read_exact` on `k` bytes. -/
def msReadExact (k : Nat) (s : MStream) : Except IOE (List Nat × MStream) :=
  (goReadExact k s.segs s.fail []).map (fun p => (p.1, ⟨p.2, s.fail⟩))

/-- Scan for the first CRLFCRLF from absolute position `i`, returning the
index just past it. -/
def findHeaderEndFrom (i : Nat) : List Nat → Option Nat
  | [] => none
  | b :: rest =>
    if (b :: rest).take 4 = [13, 10, 13, 10] then some (i + 4)
    else findHeaderEndFrom (i + 1) rest

/-- Index just past the first CRLFCRLF of the buffer (httparse's
`Complete(header_size)` boundary), if any. -/
def findHeaderEnd (l : List Nat) : Option Nat := findHeaderEndFrom 0 l

/-- HTTP token bytes, as accepted by httparse for header names. -/
def tokenByte (b : Nat) : Bool :=
  (48 ≤ b && b ≤ 57) || (65 ≤ b && b ≤ 90) || (97 ≤ b && b ≤ 122) ||
  [33, 35, 36, 37, 38, 39, 42, 43, 45, 46, 94, 95, 96, 124, 126].contains b

/-- Bytes httparse accepts inside a header value or reason phrase. -/
def valueByte (b : Nat) : Bool :=
  b = 9 || (32 ≤ b && b ≠ 127)

/-- Decimal digit byte. -/
def digitByte (b : Nat) : Bool := 48 ≤ b && b ≤ 57

/-- Parse the `HTTP/1.x SP 3DIGIT [SP reason] CRLF` status line; returns the
numeric code, the reason bytes and the rest of the block. -/
def parseStatusLine (l : List Nat) : Option (Nat × List Nat × List Nat) :=
  match l with
  | 72 :: 84 :: 84 :: 80 :: 47 :: 49 :: 46 :: v :: 32 :: c1 :: c2 :: c3 :: rest =>
    if (v = 48 || v = 49) && digitByte c1 && digitByte c2 && digitByte c3 then
      let code := (c1 - 48) * 100 + (c2 - 48) * 10 + (c3 - 48)
      match rest with
      | 13 :: 10 :: r => some (code, [], r)
      | 32 :: r =>
        let reason := r.takeWhile (fun b => b ≠ 13)
        if reason.all valueByte then
          match r.drop reason.length with
          | 13 :: 10 :: rr => some (code, reason, rr)
          | _ => none
        else none
      | _ => none
    else none
  | _ => none

/-- Parse `name: value CRLF` header lines up to the final blank CRLF, which
must close the block exactly (fuel = list length suffices). -/
def parseHeaderLines : Nat → List Nat → Option (List (List Nat × List Nat))
  | 0, _ => none
  | _ + 1, [13, 10] => some []
  | fuel + 1, l =>
    let name := l.takeWhile tokenByte
    if name.isEmpty then none
    else
      match l.drop name.length with
      | 58 :: r2 =>
        let r3 := r2.dropWhile (fun b => b = 32 || b = 9)
        let value := r3.takeWhile (fun b => b ≠ 13)
        if value.all valueByte then
          match r3.drop value.length with
          | 13 :: 10 :: rest => (parseHeaderLines fuel rest).map ((name, value) :: ·)
          | _ => none
        else none
      | _ => none

/-- Parse a complete header block (status line then headers, ending at the
blank line). -/
def parseHeaderBlock (l : List Nat) : Option (Nat × List Nat × List (List Nat × List Nat)) :=
  match parseStatusLine l with
  | some (code, reason, rest) =>
    (parseHeaderLines (rest.length + 1) rest).map (fun hs => (code, reason, hs))
  | none => none

/-- States of the prefix scanner that mirrors httparse's acceptance of an
incomplete response: position inside the version literal, the 3-digit code,
the reason phrase, a CR/LF pair, or a header name/value. -/
inductive ScanSt
  | ver (k : Nat)
  | code (k : Nat)
  | reason
  | nl1
  | lineStart
  | name
  | afterColon
  | value
  | nl2
deriving DecidableEq, Repr

/-- The version literal `HTTP/1.` byte by byte. -/
def versionBytes : List Nat := [72, 84, 84, 80, 47, 49, 46]

/-- One byte of the incomplete-response scanner; `none` means httparse would
reject the byte in this position (`Error`, not `Partial`). -/
def scanStep (st : ScanSt) (b : Nat) : Option ScanSt :=
  match st with
  | .ver k =>
    if k < 7 then (if b = versionBytes.getD k 0 then some (.ver (k + 1)) else none)
    else if k = 7 then (if b = 48 || b = 49 then some (.ver 8) else none)
    else if k = 8 then (if b = 32 then some (.code 0) else none)
    else none
  | .code k =>
    if k < 3 then (if digitByte b then some (.code (k + 1)) else none)
    else if b = 32 then some .reason
    else if b = 13 then some .nl1
    else none
  | .reason =>
    if b = 13 then some .nl1 else if valueByte b then some .reason else none
  | .nl1 => if b = 10 then some .lineStart else none
  | .lineStart =>
    if b = 13 then some .nl2 else if tokenByte b then some .name else none
  | .name =>
    if b = 58 then some .afterColon else if tokenByte b then some .name else none
  | .afterColon =>
    if b = 32 || b = 9 then some .afterColon
    else if b = 13 then some .nl1
    else if valueByte b then some .value
    else none
  | .value =>
    if b = 13 then some .nl1 else if valueByte b then some .value else none
  | .nl2 => none

/-- Run the scanner over the buffer from a given state. -/
def scanFrom (st : ScanSt) : List Nat → Bool
  | [] => true
  | b :: rest =>
    match scanStep st b with
    | some st' => scanFrom st' rest
    | none => false

/-- Whole buffer is a valid incomplete response prefix. -/
def scanIncomplete (l : List Nat) : Bool := scanFrom (.ver 0) l

/-- Outcome of `httparse::Response::parse` over the whole buffer. -/
inductive ParseOut
  | complete (headerSize code : Nat) (reason : List Nat)
      (headers : List (List Nat × List Nat))
  | incomplete
  | err
deriving DecidableEq, Repr

/-- `Response::parse(&buffer)` with the 16-slot header array of the source:
a complete well-formed header block yields `Complete(header_size)` together
with the status code, reason and header list; a buffer that is a valid proper
prefix yields `Partial`; anything else (in particular a zero-padded partial
read) is an error. -/
def httparseResponse (buf : List Nat) : ParseOut :=
  match findHeaderEnd buf with
  | some h =>
    match parseHeaderBlock (buf.take h) with
    | some (code, reason, hdrs) =>
      if hdrs.length ≤ 16 then .complete h code reason hdrs else .err
    | none => .err
  | none => if scanIncomplete buf then .incomplete else .err

/-- Lower-case one ASCII byte. -/
def lowerByte (b : Nat) : Nat := if 65 ≤ b ∧ b ≤ 90 then b + 32 else b

/-- `eq_ignore_ascii_case` on byte strings. -/
def bytesEqCI (a b : List Nat) : Bool :=
  a.map lowerByte = b.map lowerByte

/-- `get_header_value`: first header whose name matches case-insensitively. -/
def get_header_value (hdrs : List (List Nat × List Nat)) (name : List Nat) :
    Option (List Nat) :=
  (hdrs.find? (fun h => bytesEqCI h.1 name)).map (·.2)

/-- Numeric value of a digit list in the given radix. -/
def digitsVal (radix : Nat) (toVal : Nat → Nat) (l : List Nat) : Nat :=
  l.foldl (fun acc b => acc * radix + toVal b) 0

/-- `atoi::FromRadix10Checked` on a byte slice: parses the leading decimal
digits (zero digits parse as 0), `none` exactly on `usize` overflow. -/
def fromRadix10Checked (l : List Nat) : Option Nat :=
  let v := digitsVal 10 (· - 48) (l.takeWhile digitByte)
  if v < 2 ^ 64 then some v else none

/-- Hexadecimal digit byte. -/
def hexDigitByte (b : Nat) : Bool :=
  digitByte b || (65 ≤ b && b ≤ 70) || (97 ≤ b && b ≤ 102)

/-- Value of one hex digit byte. -/
def hexVal (b : Nat) : Nat :=
  if b ≤ 57 then b - 48 else if b ≤ 70 then b - 55 else b - 87

/-- `atoi::FromRadix16Checked` on a byte slice. -/
def fromRadix16Checked (l : List Nat) : Option Nat :=
  let v := digitsVal 16 hexVal (l.takeWhile hexDigitByte)
  if v < 2 ^ 64 then some v else none

/-- Write `d` into the buffer at position `p` (`buffer[p..p + d.length] = d`). -/
def writeAt (buf : List Nat) (p : Nat) (d : List Nat) : List Nat :=
  buf.take p ++ d ++ buf.drop (p + d.length)

/-- The Rust slice `buf[a..b]` (bounds are checked at each use site). -/
def subslice (buf : List Nat) (a b : Nat) : List Nat :=
  (buf.drop a).take (b - a)

/-- The zero-initialised 1024-byte read buffer `[0; BUFFER_SIZE]`. -/
def zeroBuffer : List Nat := List.replicate 1024 0

/-- Errors of the wire layer (`DockerError` constructors reachable from
`make_request` / `read_response`; messages carried as raw bytes). -/
inductive WErr
  | networkError (e : IOE)
  | httpError
  | invalidResponse (code : Nat) (msg : List Nat)
deriving DecidableEq, Repr

/-- State on leaving the header-accumulation loop: the buffer, the bytes read
so far, httparse's results, and the rest of the socket. -/
structure HState where
  buffer : List Nat
  bytesRead : Nat
  headerSize : Nat
  scode : Nat
  reason : List Nat
  headers : List (List Nat × List Nat)
  rest : MStream
deriving DecidableEq, Repr

/-- The header-accumulation loop shared by `make_request` (lines 350-358) and
`read_response` (lines 191-197): read into `buffer[bytes_read..]`, re-parse the
whole buffer, stop on `Complete` or a parse error, continue on `Partial`.
`fuel` counts loop iterations; `none` means the loop is still running after
`fuel` reads (the source loops forever). -/
def headerLoop : Nat → List Nat → Nat → MStream → Option (Except WErr HState)
  | 0, _, _, _ => none
  | fuel + 1, buffer, br, s =>
    match msRead s (1024 - br) with
    | .error e => some (.error (.networkError e))
    | .ok (data, s') =>
      let buffer' := writeAt buffer br data
      let br' := br + data.length
      match httparseResponse buffer' with
      | .err => some (.error .httpError)
      | .incomplete => headerLoop fuel buffer' br' s'
      | .complete h code reason hdrs =>
        some (.ok ⟨buffer', br', h, code, reason, hdrs, s'⟩)

/-- Result of `make_request` up to the body slice (lines 345-385): a Rust
panic (slice bound violation / usize underflow), a `DockerError`, or the
status code with the optional raw body bytes.  The JSON decoding of the body
(lines 387-399, `serde_json`) sits above this boundary and is modelled at the
client layer (`create_container_response`, `wait_container_response`). -/
inductive RunOut
  | crash
  | err (e : WErr)
  | ok (code : Nat) (body : Option (List Nat))
deriving DecidableEq, Repr

/-- The chunk-size scan of lines 374-380: starting at `header_size`, advance
until `buffer[i]` is CR or `i` exceeds `bytes_read + chunk_bytes_read`.  The
indexing `buffer[i]` is evaluated first, so reaching index 1024 panics
(`none`).  `fuel = 1025` always suffices because the index grows by one per
step. -/
def chunkScan (buf : List Nat) (limit : Nat) : Nat → Nat → Option Nat
  | 0, _ => none
  | fuel + 1, i =>
    if 1024 ≤ i then none
    else if buf.getD i 0 = 13 || limit < i then some i
    else chunkScan buf limit fuel (i + 1)

/-- Names of the three headers `make_request` consults. -/
def contentTypeBytes : List Nat := bytes "content-type"

/-- `transfer-encoding` header name. -/
def transferEncodingBytes : List Nat := bytes "transfer-encoding"

/-- `content-length` header name. -/
def contentLengthBytes : List Nat := bytes "content-length"

/-- Body phase of `make_request` (lines 359-385) given the header-loop state:
resolve `Content-Length` (read the miscomputed `buffer[bytes_read..
content_length - header_size]` range if the body is not fully buffered) or
decode a single chunk, returning the raw body slice. -/
def makeRequestBody (st : HState) : RunOut :=
  let te := (get_header_value st.headers transferEncodingBytes).getD []
  let clParsed :=
    match get_header_value st.headers contentLengthBytes with
    | some v => (fromRadix10Checked v).map some
    | none => some none
  match clParsed with
  | none => .err .httpError
  | some clOpt =>
    let cl := clOpt.getD 0
    if 0 < cl then
      if st.bytesRead - st.headerSize < cl then
        -- stream.read_exact(&mut buffer[bytes_read..(content_length - header_size)])
        if cl < st.headerSize then .crash
        else
          let endIdx := cl - st.headerSize
          if endIdx < st.bytesRead || 1024 < endIdx then .crash
          else
            match msReadExact (endIdx - st.bytesRead) st.rest with
            | .error e => .err (.networkError e)
            | .ok (d, _) =>
              let buffer' := writeAt st.buffer st.bytesRead d
              if 1024 < st.headerSize + cl then .crash
              else .ok st.scode (some (subslice buffer' st.headerSize (st.headerSize + cl)))
      else if 1024 < st.headerSize + cl then .crash
      else .ok st.scode (some (subslice st.buffer st.headerSize (st.headerSize + cl)))
    else if bytesEqCI te (bytes "chunked") then
      match msRead st.rest (1024 - st.bytesRead) with
      | .error e => .err (.networkError e)
      | .ok (data, _) =>
        let buffer' := writeAt st.buffer st.bytesRead data
        match chunkScan buffer' (st.bytesRead + data.length) 1025 st.headerSize with
        | none => .crash
        | some cse =>
          match fromRadix16Checked (subslice buffer' st.headerSize cse) with
          | none => .err .httpError
          | some csz =>
            if 1024 < cse + 2 + csz then .crash
            else .ok st.scode (some (subslice buffer' (cse + 2) (cse + 2 + csz)))
    else .ok st.scode none

/-- `make_request` (lines 345-401) up to the raw body: run the header loop,
check `StatusCode::from_u16` (the http crate accepts 100..=999), then resolve
the body.  `none` = still looping after `fuel` reads. -/
def make_request (fuel : Nat) (s : MStream) : Option RunOut :=
  match headerLoop fuel zeroBuffer 0 s with
  | none => none
  | some (.error e) => some (.err e)
  | some (.ok st) =>
    if 100 ≤ st.scode ∧ st.scode < 1000 then some (makeRequestBody st)
    else some (.err .httpError)

/-- Result of `read_response` (line 190): the buffer, counts, the rest of the
hijacked stream and the raw/multiplexed classification. -/
structure RResp where
  buffer : List Nat
  bytesRead : Nat
  headerSize : Nat
  rest : MStream
  isMultiplexed : Bool
deriving DecidableEq, Repr

/-- The recognised multiplexed-stream content type. -/
def muxContentType : List Nat := bytes "application/vnd.docker.multiplexed-stream"

/-- The recognised raw-stream content type. -/
def rawContentType : List Nat := bytes "application/vnd.docker.raw-stream"

/-- `String::from_utf8` validity: standard UTF-8 byte-sequence validation as
performed by Rust (continuation ranges, no overlongs, no surrogates, max
U+10FFFF). -/
def validUTF8 : List Nat → Bool
  | [] => true
  | b :: rest =>
    if b < 128 then validUTF8 rest
    else if 194 ≤ b ∧ b ≤ 223 then
      match rest with
      | c1 :: r => if 128 ≤ c1 ∧ c1 ≤ 191 then validUTF8 r else false
      | [] => false
    else if b = 224 then
      match rest with
      | c1 :: c2 :: r =>
        if (160 ≤ c1 ∧ c1 ≤ 191) ∧ (128 ≤ c2 ∧ c2 ≤ 191) then validUTF8 r
        else false
      | _ => false
    else if (225 ≤ b ∧ b ≤ 236) ∨ b = 238 ∨ b = 239 then
      match rest with
      | c1 :: c2 :: r =>
        if (128 ≤ c1 ∧ c1 ≤ 191) ∧ (128 ≤ c2 ∧ c2 ≤ 191) then validUTF8 r
        else false
      | _ => false
    else if b = 237 then
      match rest with
      | c1 :: c2 :: r =>
        if (128 ≤ c1 ∧ c1 ≤ 159) ∧ (128 ≤ c2 ∧ c2 ≤ 191) then validUTF8 r
        else false
      | _ => false
    else if b = 240 then
      match rest with
      | c1 :: c2 :: c3 :: r =>
        if (144 ≤ c1 ∧ c1 ≤ 191) ∧ (128 ≤ c2 ∧ c2 ≤ 191) ∧ (128 ≤ c3 ∧ c3 ≤ 191) then
          validUTF8 r
        else false
      | _ => false
    else if 241 ≤ b ∧ b ≤ 243 then
      match rest with
      | c1 :: c2 :: c3 :: r =>
        if (128 ≤ c1 ∧ c1 ≤ 191) ∧ (128 ≤ c2 ∧ c2 ≤ 191) ∧ (128 ≤ c3 ∧ c3 ≤ 191) then
          validUTF8 r
        else false
      | _ => false
    else if b = 244 then
      match rest with
      | c1 :: c2 :: c3 :: r =>
        if (128 ≤ c1 ∧ c1 ≤ 143) ∧ (128 ≤ c2 ∧ c2 ≤ 191) ∧ (128 ≤ c3 ∧ c3 ≤ 191) then
          validUTF8 r
        else false
      | _ => false
    else false

/-- Outcome of `read_response`: a Rust panic (the
`String::from_utf8(content_type).expect("UTF-8")` of line 212), a
`DockerError`, or the classified session. -/
inductive ROut
  | crash
  | err (e : WErr)
  | ok (r : RResp)
deriving DecidableEq, Repr

/-- `read_response` (lines 190-217): run the header loop; the status must be
a valid `StatusCode` (100..=999 in the http crate) and informational (1xx),
otherwise `InvalidResponse(status, reason)`; the content type must be exactly
one of the two recognised values, classifying the session; any other
content-type value yields `InvalidResponse(status, "Unrecognized content-type
from attach: " ++ ct)` when the value is valid UTF-8, and a panic from
`String::from_utf8(content_type).expect("UTF-8")` when it is not. -/
def read_response (fuel : Nat) (s : MStream) : Option ROut :=
  match headerLoop fuel zeroBuffer 0 s with
  | none => none
  | some (.error e) => some (.err e)
  | some (.ok st) =>
    if 100 ≤ st.scode ∧ st.scode < 1000 then
      if st.scode ≤ 199 then
        let ct := (get_header_value st.headers contentTypeBytes).getD []
        if ct = muxContentType then
          some (.ok ⟨st.buffer, st.bytesRead, st.headerSize, st.rest, true⟩)
        else if ct = rawContentType then
          some (.ok ⟨st.buffer, st.bytesRead, st.headerSize, st.rest, false⟩)
        else if validUTF8 ct then
          some (.err (.invalidResponse st.scode
            (bytes "Unrecognized content-type from attach: " ++ ct)))
        else some .crash
      else some (.err (.invalidResponse st.scode st.reason))
    else some (.err .httpError)

/-- Thread spawns performed by `attach_container` after classification:
the demux/raw reader thread (tagged with the multiplex flag) and the stdin
writer thread. -/
inductive AttachEv
  | spawnRead (isMultiplexed : Bool)
  | spawnWrite
deriving DecidableEq, Repr

/-- Outcome of `attach_container`: the propagated panic, a `DockerError`, or
a successfully attached session. -/
inductive AttachOut
  | crash
  | err (e : WErr)
  | ok
deriving DecidableEq, Repr

/-- `attach_container` (lines 164-188) from the response stream on: perform
the handshake read, and only on a classified session spawn the two pumping
threads (`handle_multiplexed` / `handle_raw`, lines 219-227 and 259-267). -/
def attach_container (fuel : Nat) (s : MStream) :
    Option (List AttachEv × AttachOut) :=
  match read_response fuel s with
  | none => none
  | some .crash => some ([], .crash)
  | some (.err e) => some ([], .err e)
  | some (.ok r) => some ([.spawnRead r.isMultiplexed, .spawnWrite], .ok)

/-- JSON values as `serde_json::Value` (numbers restricted to the naturals
the claims use). -/
inductive Json
  | null
  | bool (b : Bool)
  | num (n : Nat)
  | str (s : String)
  | arr (xs : List Json)
  | obj (fields : List (String × Json))

/-- `body[key]` indexing on a `Value`: field of an object, `Null` otherwise. -/
def Json.index (j : Json) (k : String) : Json :=
  match j with
  | .obj fs => ((fs.find? (fun f => f.1 = k)).map (·.2)).getD .null
  | _ => .null

/-- `Value::as_str`. -/
def Json.asStr : Json → Option String
  | .str s => some s
  | _ => none

/-- `Value::as_u64` (a natural is representable iff below 2^64). -/
def Json.asU64 : Json → Option Nat
  | .num n => if n < 2 ^ 64 then some n else none
  | _ => none

/-- `Value::to_string` (string escaping elided; no claim inspects it). -/
def Json.render : Json → String
  | .null => "null"
  | .bool true => "true"
  | .bool false => "false"
  | .num n => toString n
  | .str s => "\"" ++ s ++ "\""
  | .arr xs => "[" ++ String.intercalate "," (xs.attach.map (fun x => x.1.render)) ++ "]"
  | .obj fs => "\x7b" ++
      String.intercalate "," (fs.attach.map (fun f =>
        "\"" ++ f.1.1 ++ "\":" ++ f.1.2.render)) ++ "\x7d"
decreasing_by
  · simp_wf
    have h := List.sizeOf_lt_of_mem x.2
    omega
  · simp_wf
    obtain ⟨⟨a, b⟩, hf⟩ := f
    have h := List.sizeOf_lt_of_mem hf
    simp at h ⊢
    omega

/-- Client-layer errors (`DockerError` constructors used by `create_container`
and `wait_container`, with rendered string messages). -/
inductive CErr
  | errorResponse (code : Nat) (message : String)
  | invalidResponse (code : Nat) (message : String)
deriving DecidableEq, Repr

/-- `make_error_response` (lines 426-428). -/
def make_error_response (status : Nat) (body : Json) (fallback : String) : CErr :=
  .errorResponse status (((body.index "message").asStr).getD fallback)

/-- The result match of `create_container` (lines 127-134) on the
`(status, maybe_body)` pair returned by the wire layer. -/
def create_container_response (status : Nat) (maybeBody : Option Json) :
    Except CErr String :=
  match maybeBody with
  | some body =>
    if status = 201 then
      match (body.index "Id").asStr with
      | some id => .ok id
      | none => .error (.invalidResponse status body.render)
    else .error (make_error_response status body "Container creation failed")
  | none => .error (.invalidResponse status "")

/-- The result match of `wait_container` (lines 138-148): on a 2xx status
extract `StatusCode` as a u64 and narrow it to u8. -/
def wait_container_response (status : Nat) (maybeBody : Option Json) :
    Except CErr Nat :=
  match maybeBody with
  | some body =>
    if 200 ≤ status ∧ status ≤ 299 then
      match (body.index "StatusCode").asU64 with
      | some n =>
        if n ≤ 255 then .ok n
        else .error (.invalidResponse status ("container status code >255: " ++ toString n))
      | none => .error (.invalidResponse status body.render)
    else .error (make_error_response status body "Container wait failed")
  | none => .error (.invalidResponse status "")

/-- The three multiplex stream types (`StreamType`, lines 269-273). -/
inductive StreamType
  | stdinT
  | stdoutT
  | stderrT
deriving DecidableEq, Repr

/-- `read_frame_header` (lines 305-314): type selector from byte 0 (values
outside 0..2 are `InvalidStream`), payload length big-endian from bytes 4-7. -/
def read_frame_header (buffer : List Nat) : Except Nat (StreamType × Nat) :=
  match buffer.getD 0 0 with
  | 0 => .ok (.stdinT, beU32 buffer)
  | 1 => .ok (.stdoutT, beU32 buffer)
  | 2 => .ok (.stderrT, beU32 buffer)
  | b => .error b
where
  /-- `BigEndian::read_u32(&buffer[4..])`. -/
  beU32 (buffer : List Nat) : Nat :=
    ((buffer.getD 4 0 * 256 + buffer.getD 5 0) * 256 + buffer.getD 6 0) * 256 +
      buffer.getD 7 0

/-- Writes and flushes performed on the local standard streams by the demux
loop. -/
inductive MuxEv
  | writeOut (bs : List Nat)
  | flushOut
  | writeErr (bs : List Nat)
  | flushErr
deriving DecidableEq, Repr

/-- Demux-loop errors: `NetworkError` (any I/O failure, including an
unexpected EOF inside a payload) or `InvalidStream`. -/
inductive MuxErr
  | networkError (e : IOE)
  | invalidStream (b : Nat)
deriving DecidableEq, Repr

/-- `read_multiplexed_data` (lines 275-303) over the chained stream
(`buffer[header_size..bytes_read].chain(stream)` is the segment list of `s`):
read an 8-byte frame header (a clean or ragged EOF here returns `Ok`), decode
it, read exactly the payload, route stdin-echo/stdout payloads to local
stdout and stderr payloads to local stderr, flushing after each write.
`fuel` bounds the number of frames; `none` means fuel ran out. -/
def read_multiplexed_data : Nat → MStream → List MuxEv →
    Option (List MuxEv × Except MuxErr Unit)
  | 0, _, _ => none
  | fuel + 1, s, acc =>
    match msReadExact 8 s with
    | .error .eof => some (acc, .ok ())
    | .error (.other e) => some (acc, .error (.networkError (.other e)))
    | .ok (hdr, s') =>
      match read_frame_header hdr with
      | .error b => some (acc, .error (.invalidStream b))
      | .ok (t, size) =>
        match msReadExact size s' with
        | .error e => some (acc, .error (.networkError e))
        | .ok (frame, s'') =>
          let evs :=
            match t with
            | .stdinT => [MuxEv.writeOut frame, MuxEv.flushOut]
            | .stdoutT => [MuxEv.writeOut frame, MuxEv.flushOut]
            | .stderrT => [MuxEv.writeErr frame, MuxEv.flushErr]
          read_multiplexed_data fuel s'' (acc ++ evs)

/-- Big-endian 4-byte encoding of a payload length below 2^32. -/
def beEnc (n : Nat) : List Nat :=
  [n / 2 ^ 24 % 256, n / 2 ^ 16 % 256, n / 2 ^ 8 % 256, n % 256]

/-- A well-formed multiplex frame: type byte, three reserved zero bytes,
big-endian length, payload. -/
def mkFrame (t : Nat) (p : List Nat) : List Nat :=
  t :: 0 :: 0 :: 0 :: beEnc p.length ++ p

/-- Byte stream of a frame list. -/
def muxBytes (frames : List (Nat × List Nat)) : List Nat :=
  (frames.map (fun f => mkFrame f.1 f.2)).flatten

/-- Destination of each frame type: stdin-echo and stdout frames go to local
stdout, stderr frames to local stderr, each followed by a flush. -/
def frameEvents (frames : List (Nat × List Nat)) : List MuxEv :=
  (frames.map (fun f =>
    if f.1 = 2 then [MuxEv.writeErr f.2, MuxEv.flushErr]
    else [MuxEv.writeOut f.2, MuxEv.flushOut])).flatten

/-- Calls `run_container` (lib.rs lines 463-495) makes, in program order:
attach, spawning the wait thread (recorded with the wait URL it will request),
start, the blocking channel receive of the wait result, remove. -/
inductive REvent
  | attach
  | spawnWait (url : String)
  | start
  | recv
  | remove
deriving DecidableEq, Repr

/-- Results the engine hands each call of one run (the wait result is the
value the background thread sends over the one-shot channel). -/
structure RunEnv where
  attachResult : Except Nat Unit
  startResult : Except Nat Unit
  waitResult : Except Nat Nat
  removeResult : Except Nat Unit
deriving Repr

/-- Stage-tagged failures of `run_container` (the `context(...)` wrappers). -/
inductive RunErr
  | attachFailed (e : Nat)
  | startFailed (e : Nat)
  | waitFailed (e : Nat)
  | removeFailed (e : Nat)
deriving DecidableEq, Repr

/-- The URL `wait_container` requests (line 139). -/
def wait_url (id : String) : String :=
  "/containers/" ++ id ++ "/wait?condition=next-exit"

/-- `run_container` (lib.rs lines 463-495): attach (fatal on failure), spawn
the background wait thread, start (fatal on failure), block on the channel
for the wait result (fatal on failure, and the container is not removed),
then remove and return `(id, exit_code)`. -/
def run_container (env : RunEnv) (id : String) :
    List REvent × Except RunErr (String × Nat) :=
  match env.attachResult with
  | .error e => ([.attach], .error (.attachFailed e))
  | .ok _ =>
    match env.startResult with
    | .error e =>
      ([.attach, .spawnWait (wait_url id), .start], .error (.startFailed e))
    | .ok _ =>
      match env.waitResult with
      | .error e =>
        ([.attach, .spawnWait (wait_url id), .start, .recv],
         .error (.waitFailed e))
      | .ok code =>
        match env.removeResult with
        | .error e =>
          ([.attach, .spawnWait (wait_url id), .start, .recv, .remove],
           .error (.removeFailed e))
        | .ok _ =>
          ([.attach, .spawnWait (wait_url id), .start, .recv, .remove],
           .ok (id, code))

/-- Filesystem paths as absolute component lists (`/a/b` = `["a","b"]`);
`Path::starts_with` is component-wise prefix. -/
abbrev FsPath := List String

/-- Render a path (`Path::to_str`, assumed valid Unicode). -/
def pathStr (p : FsPath) : String :=
  "/" ++ String.intercalate "/" p

/-- Host environment the command builders consult: terminal state, current
directory, `HOME`, the PATH-resolved program, `Path::exists` and
`fs::canonicalize` as oracles. -/
structure CmdEnv where
  isTty : Bool
  currentDir : FsPath
  home : Option FsPath
  resolvedProgram : Option FsPath
  pathExists : String → Bool
  canonical : FsPath → Option FsPath

/-- A podman `--mount` argument string. -/
def mountArg (p : String) (readonly : Bool) : String :=
  "type=bind,source=" ++ p ++ ",target=" ++ p ++
    (if readonly then ",readonly" else "")

/-- Canonicalize-and-mount loop shared by the podman read-only and writable
mount lists (lib.rs lines 626-642). -/
def canonMounts (env : CmdEnv) (ps : List FsPath) (readonly : Bool) :
    Except String (List String) :=
  match ps with
  | [] => .ok []
  | p :: rest =>
    match env.canonical p with
    | none => .error ("Mount point " ++ pathStr p ++ " not found")
    | some cp =>
      (canonMounts env rest readonly).map
        (fun args => ["--mount", mountArg (pathStr cp) readonly] ++ args)

/-- The error returned when the current directory is the home directory or
one of its ancestors. -/
def homeDirError : String :=
  "Cannot run from home directory or its parent directories"

/-- `podman_cmd` (lib.rs lines 566-655): argument vector of the `podman`
invocation, or an error.  The home-directory guard runs, inside the
mount-current-dir branch, before any mount argument is constructed. -/
def podman_cmd (env : CmdEnv) (network : String) (mountCurrentDir mcdWritable : Bool)
    (mountReadonly mountWritable : List FsPath) (extraEnv : List String)
    (workdir : Option FsPath) (x11 : Bool) : Except String (List String) := do
  let base := ["run", "--userns=keep-id", "--cap-drop", "ALL", "--security-opt",
    "no-new-privileges=true", "--rm", "--interactive"]
  let base := base ++ (if env.isTty then ["--tty"] else [])
  let base := base ++ ["--network=" ++ network]
  let base ←
    if mountCurrentDir then do
      let home ← (env.home.map .ok).getD (.error "HOME not set")
      if env.currentDir = home ∨ env.currentDir.isPrefixOf home then
        .error homeDirError
      else
        .ok (base ++
          ["--mount", mountArg (pathStr env.currentDir) (!mcdWritable)] ++
          ["--workdir", pathStr (workdir.getD env.currentDir)])
    else
      .ok (base ++ (match workdir with
        | some w => ["--workdir", pathStr w]
        | none => []))
  let roArgs ← canonMounts env mountReadonly true
  let rwArgs ← canonMounts env mountWritable false
  let x11Args := if x11 then
      ["-e", "DISPLAY", "--mount", mountArg "/tmp/.X11-unix" false]
    else []
  .ok (base ++ roArgs ++ rwArgs ++ x11Args ++
    (extraEnv.map (fun e => ["-e", e])).flatten)

/-- The fixed `ENV` variable list forwarded into containers (lib.rs 26-38). -/
def envConst : List String :=
  ["LANG", "LC_ADDRESS", "LC_NAME", "LC_MONETARY", "LC_PAPER",
   "LC_IDENTIFICATION", "LC_TELEPHONE", "LC_MEASUREMENT", "LC_TIME",
   "LC_NUMERIC", "USER"]

/-- The fixed system-directory allow-list (lib.rs 40-42). -/
def systemMounts : List String :=
  ["/bin", "/etc", "/lib", "/lib32", "/lib64", "/libx32", "/sbin", "/usr"]

/-- `contained_cmd` (lib.rs lines 239-316): podman arguments plus read-only
root, program-directory and system mounts, tmpfs, environment, entrypoint,
image and program arguments. -/
def contained_cmd (env : CmdEnv) (image : String) (arguments : List String)
    (network : String) (mountCurrentDir mcdWritable : Bool)
    (mountReadonly mountWritable : List FsPath) (extraEnv : List String)
    (workdir : Option FsPath) (x11 : Bool) : Except String (List String) := do
  let pod ← podman_cmd env network mountCurrentDir mcdWritable mountReadonly
    mountWritable extraEnv workdir x11
  let pod := pod ++ ["--read-only"]
  let program ← (env.resolvedProgram.map .ok).getD (.error "Program not found")
  let programDir := program.dropLast
  let pod :=
    if mountCurrentDir then
      if programDir ≠ env.currentDir then
        pod ++ ["--mount", mountArg (pathStr programDir) true]
      else pod
    else pod ++ ["--mount", mountArg (pathStr programDir) true]
  let pod := pod ++ (systemMounts.filterMap (fun p =>
    if env.pathExists p then some ["--mount",
      "type=bind,source=" ++ p ++ ",target=" ++ p ++ ",readonly"] else none)).flatten
  let pod := pod ++ ["--tmpfs=/tmp:rw,exec", "--tmpfs=/var/tmp:rw,exec",
    "--tmpfs=/run:rw,noexec", "--tmpfs=/var/run:rw,noexec"]
  let pod := pod ++ (envConst.map (fun e => ["-e", e])).flatten
  .ok (pod ++ ["--entrypoint", pathStr program, image] ++ arguments)

/-- `run_image_cmd` (lib.rs lines 529-564). -/
def run_image_cmd (env : CmdEnv) (image : String) (arguments : List String)
    (entrypoint : Option String) (network : String)
    (mountCurrentDir mcdWritable : Bool)
    (mountReadonly mountWritable : List FsPath) (extraEnv : List String)
    (workdir : Option FsPath) (x11 : Bool) : Except String (List String) := do
  let pod ← podman_cmd env network mountCurrentDir mcdWritable mountReadonly
    mountWritable extraEnv workdir x11
  let pod := pod ++ (match entrypoint with
    | some e => ["--entrypoint", e]
    | none => [])
  .ok (pod ++ [image] ++ arguments)

/-- `bwrap_cmd` (lib.rs lines 685-797): bwrap argument vector.  The program
is PATH-resolved first; inside the mount-current-dir branch the
home-directory guard runs before any bind argument is added. -/
def bwrap_cmd (env : CmdEnv) (arguments : List String) (network : Bool)
    (mountCurrentDir mcdWritable : Bool)
    (mountReadonly mountWritable : List FsPath) (extraEnv : List String)
    (workdir : Option FsPath) : Except String (List String) := do
  let base := ["--ro-bind", "/usr/bin", "/usr/bin", "--ro-bind", "/usr/sbin",
    "/usr/sbin", "--ro-bind", "/usr/lib", "/usr/lib", "--ro-bind",
    "/usr/lib64", "/usr/lib64", "--ro-bind", "/usr/share", "/usr/share",
    "--symlink", "/usr/lib", "/lib", "--symlink", "/usr/lib64", "/lib64",
    "--symlink", "/usr/bin", "/bin", "--symlink", "/usr/sbin", "/sbin",
    "--proc", "/proc", "--dev", "/dev"]
  let program ← (env.resolvedProgram.map .ok).getD (.error "Program not found")
  let programDir := program.dropLast
  let base ←
    if mountCurrentDir then do
      let home ← (env.home.map .ok).getD (.error "HOME not set")
      if env.currentDir = home ∨ env.currentDir.isPrefixOf home then
        .error homeDirError
      else
        let cd := pathStr env.currentDir
        let b := base ++ [if mcdWritable then "--bind" else "--ro-bind", cd, cd]
        let b := b ++ ["--chdir", pathStr (workdir.getD env.currentDir)]
        .ok (if programDir ≠ env.currentDir then
          b ++ ["--ro-bind", pathStr programDir, pathStr programDir]
        else b)
    else
      let b := base ++ (match workdir with
        | some w => ["--chdir", pathStr w]
        | none => [])
      .ok (b ++ ["--ro-bind", pathStr programDir, pathStr programDir])
  let roArgs ← bwrapMounts env mountReadonly "--ro-bind"
  let rwArgs ← bwrapMounts env mountWritable "--bind"
  let base := base ++ roArgs ++ rwArgs ++
    (extraEnv.map (fun e => ["--setenv", e])).flatten
  let base := base ++ ["--new-session", "--unshare-all"] ++
    (if network then ["--share-net"] else [])
  .ok (base ++ [pathStr program] ++ arguments)
where
  /-- Canonicalize-and-bind loop of lib.rs lines 771-778. -/
  bwrapMounts (env : CmdEnv) (ps : List FsPath) (flag : String) :
      Except String (List String) :=
    match ps with
    | [] => .ok []
    | p :: rest =>
      match env.canonical p with
      | none => .error ("Mount point " ++ pathStr p ++ " not found")
      | some cp =>
        (bwrapMounts env rest flag).map
          (fun args => [flag, pathStr cp, pathStr cp] ++ args)

/-- The single observable action of the `via_command` wrappers: `exec` of the
built argument vector (which replaces the process). -/
inductive ExecEv
  | exec (args : List String)
deriving DecidableEq, Repr

/-- `contained_via_command` (lib.rs lines 207-237): build the command, then
`exec` it; reaching the code after `exec` means `exec` itself failed. -/
def contained_via_command (env : CmdEnv) (image : String)
    (arguments : List String) (network : String)
    (mountCurrentDir mcdWritable : Bool)
    (mountReadonly mountWritable : List FsPath) (extraEnv : List String)
    (workdir : Option FsPath) (x11 : Bool) : List ExecEv × Except String Unit :=
  match contained_cmd env image arguments network mountCurrentDir mcdWritable
    mountReadonly mountWritable extraEnv workdir x11 with
  | .error e => ([], .error e)
  | .ok args => ([.exec args], .error "Failed to exec")

/-- `run_image_via_command` (lib.rs lines 497-527). -/
def run_image_via_command (env : CmdEnv) (image : String)
    (arguments : List String) (entrypoint : Option String) (network : String)
    (mountCurrentDir mcdWritable : Bool)
    (mountReadonly mountWritable : List FsPath) (extraEnv : List String)
    (workdir : Option FsPath) (x11 : Bool) : List ExecEv × Except String Unit :=
  match run_image_cmd env image arguments entrypoint network mountCurrentDir
    mcdWritable mountReadonly mountWritable extraEnv workdir x11 with
  | .error e => ([], .error e)
  | .ok args => ([.exec args], .error "Failed to exec")

/-- `wrapped` (lib.rs lines 657-683). -/
def wrapped (env : CmdEnv) (arguments : List String) (network : Bool)
    (mountCurrentDir mcdWritable : Bool)
    (mountReadonly mountWritable : List FsPath) (extraEnv : List String)
    (workdir : Option FsPath) : List ExecEv × Except String Unit :=
  match bwrap_cmd env arguments network mountCurrentDir mcdWritable
    mountReadonly mountWritable extraEnv workdir with
  | .error e => ([], .error e)
  | .ok args => ([.exec args], .error "Failed to exec bwrap")

/-- The `/etc/passwd`, `/etc/group` user mounts (lib.rs 44). -/
def userMounts : List String := ["/etc/passwd", "/etc/group"]

/-- `run_image_body` (lib.rs lines 367-446), the daemon-path spec builder:
collects bind mounts, environment and the canonicalized working directory
(the final `create_container_body` call is modelled by returning its mount,
environment and working-directory arguments).  It consults the current
directory and the canonicalize oracle only — no `HOME` lookup occurs on this
path. -/
def run_image_body (env : CmdEnv) (mountCurrentDir mcdWritable : Bool)
    (mountReadonly mountWritable : List FsPath) (extraEnv : List String)
    (workdir : Option FsPath) (x11 : Bool) :
    Except String (List (String × List String) × List String × String) := do
  let cdBind := if mcdWritable then ["rw"] else ["ro"]
  let (binds, workingDir) :=
    if mountCurrentDir then
      ([(pathStr env.currentDir, cdBind)], workdir.getD env.currentDir)
    else ([], workdir.getD [])
  let binds := binds ++ userMounts.filterMap (fun p =>
    if env.pathExists p then some (p, ["ro"]) else none)
  let binds := binds ++ mountReadonly.map (fun p => (pathStr p, ["ro"]))
  let binds := binds ++ mountWritable.map (fun p => (pathStr p, ["rw"]))
  let envs := extraEnv
  let (envs, binds) :=
    if x11 then (envs ++ ["DISPLAY"], binds ++ [("/tmp/.X11-unix", [])])
    else (envs, binds)
  let absWd ← ((env.canonical workingDir).map .ok).getD
    (.error "Working directory not found")
  .ok (binds, envs, pathStr absWd)

/-- Concrete chunked response split into single-byte reads (C1
counterexample input). -/
def chunkedResponseBytes : List Nat :=
  bytes "HTTP/1.1 200 OK\r\nContent-Type: application/json\r\nTransfer-Encoding: chunked\r\n\r\n4\r\ntrue"

/-- Concrete Content-Length response whose 4-byte body arrives in a second
read (C2 failing input). -/
def clHeaderBytes : List Nat :=
  bytes "HTTP/1.1 200 OK\r\nContent-Type: application/json\r\nContent-Length: 4\r\n\r\n"

/-- A response closed by the peer after ten bytes (C9 counterexample
input). -/
def earlyCloseBytes : List Nat := bytes "HTTP/1.1 2"

/-- A host environment whose current directory equals `HOME` (C10 witness
input): no TTY, cwd `/home/u`, `HOME=/home/u`, program resolved to
`/usr/bin/ls`, no system paths present, canonicalization the identity. -/
def homeCwdEnv : CmdEnv :=
  ⟨false, ["home", "u"], some ["home", "u"], some ["usr", "bin", "ls"],
   fun _ => false, fun p => some p⟩

/-- A byte sequence as the segment list of one socket delivery (no segment
for the empty sequence: the socket is simply at EOF). -/
def oneSeg (l : List Nat) : List (List Nat) :=
  if l.isEmpty then [] else [l]

/-- An attach response with informational status but unrecognised content
type (C4 witness input). -/
def attachBadCTBytes : List Nat :=
  bytes "HTTP/1.1 101 UPGRADED\r\nContent-Type: text/plain\r\n\r\n"

/-- The first 1024 bytes of a header block longer than the buffer: a valid,
incomplete response prefix that exactly fills the buffer (C9 witness
input). -/
def longHeaderBytes : List Nat :=
  bytes "HTTP/1.1 200 OK\r\nA: " ++ List.replicate 1004 97

/-- The header block of `chunkedResponseBytes` alone (79 bytes). -/
def chunkedHeaderBytes : List Nat :=
  bytes "HTTP/1.1 200 OK\r\nContent-Type: application/json\r\nTransfer-Encoding: chunked\r\n\r\n"

/-- An attach response with informational status and a content-type value
that is not valid UTF-8 (C4 counterexample input). -/
def attachBadUTF8Bytes : List Nat :=
  bytes "HTTP/1.1 101 UPGRADED\r\nContent-Type: " ++ [255] ++ bytes "\r\n\r\n"


/-- C6: `wait_container`, given a 2xx status and JSON body
`(StatusCode: n)`, returns `Ok n` for every n in 0..255 and an
`InvalidResponse` error (never a truncated value) for every n ≥ 256. -/
theorem wait_container_exit_codes (status n : Nat)
    (h1 : 200 ≤ status) (h2 : status ≤ 299) :
    (n ≤ 255 →
      wait_container_response status (some (Json.obj [("StatusCode", Json.num n)])) =
        .ok n) ∧
    (256 ≤ n →
      ∃ m, wait_container_response status (some (Json.obj [("StatusCode", Json.num n)])) =
        .error (.invalidResponse status m)) := by
  have hidx : (Json.obj [("StatusCode", Json.num n)]).index "StatusCode" = Json.num n := by
    simp [Json.index]
  constructor
  · intro hn
    have hlt : n < 18446744073709551616 := by omega
    simp [wait_container_response, hidx, Json.asU64, h1, h2, hlt, hn]
  · intro hn
    by_cases hlt : n < 18446744073709551616
    · refine ⟨"container status code >255: " ++ toString n, ?_⟩
      have hn' : ¬ n ≤ 255 := by omega
      simp [wait_container_response, hidx, Json.asU64, h1, h2, hlt, hn']
    · refine ⟨(Json.obj [("StatusCode", Json.num n)]).render, ?_⟩
      simp [wait_container_response, hidx, Json.asU64, h1, h2, hlt]

/-- Witness for C6 at status 200 with exit codes 137 and 256. -/
theorem wait_container_exit_codes_witness :
    (wait_container_response 200 (some (Json.obj [("StatusCode", Json.num 137)])) =
      .ok 137) ∧
    (∃ m, wait_container_response 200 (some (Json.obj [("StatusCode", Json.num 256)])) =
      .error (.invalidResponse 200 m)) :=
  ⟨(wait_container_exit_codes 200 137 (by decide) (by decide)).1 (by decide),
   (wait_container_exit_codes 200 256 (by decide) (by decide)).2 (by decide)⟩

/-- C5 (amended): `create_container` returns `Ok id` exactly on a 201 status
whose JSON body carries a string `Id`; a 201 body without a string `Id` is
`InvalidResponse`; any non-201 status with a JSON body is `ErrorResponse`
with the body's `message` field or the fixed fallback; a response carrying no
parsed body is `InvalidResponse` for every status, 201 or not. -/
theorem create_container_result (status : Nat) (body : Json) :
    (status = 201 → ∀ id, (body.index "Id").asStr = some id →
      create_container_response status (some body) = .ok id) ∧
    (status = 201 → (body.index "Id").asStr = none →
      create_container_response status (some body) =
        .error (.invalidResponse status body.render)) ∧
    (status ≠ 201 →
      create_container_response status (some body) =
        .error (.errorResponse status
          (((body.index "message").asStr).getD "Container creation failed"))) ∧
    (create_container_response status none = .error (.invalidResponse status "")) := by
  refine ⟨?_, ?_, ?_, rfl⟩
  · intro hs id hid
    simp [create_container_response, hs, hid]
  · intro hs hid
    simp [create_container_response, hs, hid]
  · intro hs
    simp [create_container_response, hs, make_error_response]

/-- Witness for C5: a 201 response with `(Id: "abc")` yields `Ok "abc"`, and
a 404 with a `message` body yields the engine's message. -/
theorem create_container_result_witness :
    (create_container_response 201 (some (Json.obj [("Id", Json.str "abc")])) =
      .ok "abc") ∧
    (create_container_response 404 (some (Json.obj [("message", Json.str "no such image")])) =
      .error (.errorResponse 404 "no such image")) :=
  ⟨(create_container_result 201 (Json.obj [("Id", Json.str "abc")])).1 rfl "abc" rfl,
   (create_container_result 404 (Json.obj [("message", Json.str "no such image")])).2.2.1
     (by decide)⟩

/-- C5 counterexample: a non-201 status with no parsed body yields
`InvalidResponse`, not the `ErrorResponse` the claim requires for every
non-201 status. -/
theorem create_container_no_body_counterexample :
    create_container_response 500 none = .error (.invalidResponse 500 "") := rfl

/-- C7: `run_container` removes the container only after the background wait
thread has delivered a successful exit code over the channel; a wait error is
returned as the run's failure and the container is never removed. -/
theorem run_container_remove_after_wait (env : RunEnv) (id : String) :
    (∀ e, env.waitResult = .error e →
      REvent.remove ∉ (run_container env id).1 ∧
      (env.attachResult = .ok () → env.startResult = .ok () →
        (run_container env id).2 = .error (.waitFailed e))) ∧
    (REvent.remove ∈ (run_container env id).1 →
      ∃ c, env.waitResult = .ok c ∧
        (run_container env id).1 =
          [.attach, .spawnWait (wait_url id), .start, .recv, .remove]) := by
  obtain ⟨ar, sr, wr, rr⟩ := env
  cases ar <;> cases sr <;> cases wr <;> cases rr <;>
    simp [run_container]

/-- Witness for C7: with a failing wait call the trace has no remove and the
failure is the wait error. -/
theorem run_container_remove_after_wait_witness :
    REvent.remove ∉ (run_container ⟨.ok (), .ok (), .error 7, .ok ()⟩ "c1").1 ∧
    (run_container ⟨.ok (), .ok (), .error 7, .ok ()⟩ "c1").2 =
      .error (.waitFailed 7) :=
  ⟨((run_container_remove_after_wait ⟨.ok (), .ok (), .error 7, .ok ()⟩ "c1").1 7 rfl).1,
   ((run_container_remove_after_wait ⟨.ok (), .ok (), .error 7, .ok ()⟩ "c1").1 7 rfl).2 rfl rfl⟩

/-- C8: whenever `run_container` issues start, the completed attach call and
the spawn of the background wait thread (requesting the next-exit wait URL)
precede it in program order; the wait URL is exactly
`/containers/(id)/wait?condition=next-exit`. -/
theorem run_container_attach_before_start (env : RunEnv) (id : String) :
    (REvent.start ∈ (run_container env id).1 →
      env.attachResult = .ok () ∧
      (run_container env id).1.take 3 =
        [.attach, .spawnWait (wait_url id), .start]) ∧
    wait_url id = "/containers/" ++ id ++ "/wait?condition=next-exit" := by
  refine ⟨?_, rfl⟩
  obtain ⟨ar, sr, wr, rr⟩ := env
  cases ar <;> cases sr <;> cases wr <;> cases rr <;>
    simp [run_container]

/-- Witness for C8 on a successful run. -/
theorem run_container_attach_before_start_witness :
    Except.ok () = (⟨.ok (), .ok (), .ok 0, .ok ()⟩ : RunEnv).attachResult ∧
    (run_container ⟨.ok (), .ok (), .ok 0, .ok ()⟩ "c2").1.take 3 =
      [.attach, .spawnWait (wait_url "c2"), .start] := by
  have h := (run_container_attach_before_start ⟨.ok (), .ok (), .ok 0, .ok ()⟩ "c2").1
    (by decide)
  exact ⟨h.1.symm, h.2⟩

/-- C10: with the mount-current-directory flag set, every command-based path
(`contained_via_command`, `run_image_via_command`, `wrapped`) returns the
home-directory error — with no `exec` event — whenever the current directory
equals `HOME` or is an ancestor of it; the daemon-based spec builder performs
no such check and succeeds in the same situation. -/
theorem home_directory_guard (env : CmdEnv) (h : FsPath)
    (image network : String) (arguments extraEnv : List String)
    (entrypoint : Option String) (netB mcdW x11 : Bool)
    (mro mrw : List FsPath) (workdir : Option FsPath)
    (hh : env.home = some h)
    (hcd : env.currentDir = h ∨ env.currentDir.isPrefixOf h) :
    contained_via_command env image arguments network true mcdW mro mrw
      extraEnv workdir x11 = ([], .error homeDirError) ∧
    run_image_via_command env image arguments entrypoint network true mcdW
      mro mrw extraEnv workdir x11 = ([], .error homeDirError) ∧
    (∀ prog, env.resolvedProgram = some prog →
      wrapped env arguments netB true mcdW mro mrw extraEnv workdir =
        ([], .error homeDirError)) ∧
    (∀ wd', env.canonical (workdir.getD env.currentDir) = some wd' →
      ∃ out, run_image_body env true mcdW mro mrw extraEnv workdir x11 =
        .ok out) := by
  have hcond : env.currentDir = h ∨ env.currentDir <+: h := by
    rcases hcd with h1 | h1
    · exact Or.inl h1
    · exact Or.inr (by simpa using h1)
  have hpod : podman_cmd env network true mcdW mro mrw extraEnv workdir x11 =
      .error homeDirError := by
    simp [podman_cmd, hh, hcond, bind, Except.bind]
  refine ⟨?_, ?_, ?_, ?_⟩
  · simp [contained_via_command, contained_cmd, hpod, bind, Except.bind]
  · simp [run_image_via_command, run_image_cmd, hpod, bind, Except.bind]
  · intro prog hprog
    simp [wrapped, bwrap_cmd, hprog, hh, hcond, bind, Except.bind]
  · intro wd' hw
    cases hres : run_image_body env true mcdW mro mrw extraEnv workdir x11 with
    | error e =>
      exfalso
      simp [run_image_body, hw, bind, Except.bind] at hres
    | ok out => exact ⟨out, rfl⟩

/-- Witness for C10 with cwd = HOME = /home/u: the podman path refuses, the
daemon-path spec builder succeeds. -/
theorem home_directory_guard_witness :
    contained_via_command homeCwdEnv "img" [] "none" true false [] [] [] none
      false = ([], .error homeDirError) ∧
    (∃ out, run_image_body homeCwdEnv true false [] [] [] none false =
      .ok out) := by
  have h := home_directory_guard homeCwdEnv ["home", "u"] "img" "none" [] []
    none false false false [] [] none rfl (Or.inl rfl)
  exact ⟨h.1, h.2.2.2 ["home", "u"] rfl⟩

/-- Reading exactly the first `A.length` bytes of a one-segment stream
delivers `A` and leaves the rest. -/
theorem msReadExact_seg (A B : List Nat) (f : Option Nat) :
    msReadExact A.length ⟨oneSeg (A ++ B), f⟩ = .ok (A, ⟨oneSeg B, f⟩) := by
  cases A with
  | nil =>
    show (goReadExact 0 (oneSeg B) f []).map _ = _
    rw [goReadExact.eq_def]
    simp [Except.map]
  | cons a A' =>
    have hne : ((a :: A') ++ B).isEmpty = false := by simp
    have hlen : (a :: A').length ≤ ((a :: A') ++ B).length := by
      simp
    simp only [oneSeg, hne, Bool.false_eq_true, if_false, msReadExact,
      goReadExact, List.length_cons, Nat.succ_ne_zero, if_neg, hlen, if_true,
      List.take_left, List.drop_left, if_pos]
    simp [oneSeg, List.take_left' rfl, List.drop_left' rfl, Except.map]

/-- `beEnc` always has four bytes. -/
theorem beEnc_length (n : Nat) : (beEnc n).length = 4 := rfl

/-- Decoding a frame header built from a type byte in 0..2 and an encoded
length below 2^32 recovers both. -/
theorem read_frame_header_mk (t n : Nat) (ht : t ≤ 2) (hn : n < 2 ^ 32) :
    read_frame_header (t :: 0 :: 0 :: 0 :: beEnc n) =
      .ok ((if t = 0 then .stdinT else if t = 1 then .stdoutT
        else .stderrT), n) := by
  interval_cases t <;>
    simp [read_frame_header, read_frame_header.beU32, beEnc] <;> omega

/-- Demuxing the byte stream of well-formed frames followed by `extra`
consumes the frames, emits their write/flush events in order, and continues
on `extra`. -/
theorem read_multiplexed_data_frames (frames : List (Nat × List Nat))
    (fuel0 : Nat) (extra : List Nat) (f : Option Nat)
    (hwf : ∀ fr ∈ frames, fr.1 ≤ 2 ∧ fr.2.length < 2 ^ 32) :
    ∀ acc, read_multiplexed_data (frames.length + fuel0)
      ⟨oneSeg (muxBytes frames ++ extra), f⟩ acc =
      read_multiplexed_data fuel0 ⟨oneSeg extra, f⟩ (acc ++ frameEvents frames) := by
  induction frames with
  | nil => intro acc; simp [muxBytes, frameEvents]
  | cons fr fs ih =>
    intro acc
    obtain ⟨t, p⟩ := fr
    obtain ⟨ht, hp⟩ := hwf (t, p) (List.mem_cons_self _ _)
    have hwf' : ∀ fr ∈ fs, fr.1 ≤ 2 ∧ fr.2.length < 2 ^ 32 :=
      fun fr h => hwf fr (List.mem_cons_of_mem _ h)
    have hmux : muxBytes ((t, p) :: fs) ++ extra =
        (t :: 0 :: 0 :: 0 :: beEnc p.length) ++ (p ++ (muxBytes fs ++ extra)) := by
      simp [muxBytes, mkFrame]
    have hflen : ((t, p) :: fs).length + fuel0 = (fs.length + fuel0) + 1 := by
      simp [List.length_cons]; omega
    rw [hmux, hflen, read_multiplexed_data]
    have h8 : (8 : Nat) = (t :: 0 :: 0 :: 0 :: beEnc p.length).length := by
      simp [beEnc]
    rw [h8, msReadExact_seg]
    simp only [read_frame_header_mk t p.length ht hp, msReadExact_seg]
    interval_cases t <;>
      (try simp only [reduceIte]) <;>
      rw [ih hwf'] <;>
      simp [frameEvents]

/-- C3: on a stream of well-formed multiplex frames, `read_multiplexed_data`
routes stdin-echo/stdout payloads to local stdout and stderr payloads to
local stderr in original order, flushing after each write, and returns `Ok`
at a clean end of stream; a frame whose type byte is outside 0..2 stops the
loop with `InvalidStream` of that byte; an I/O error on the socket is
propagated as a `NetworkError`. -/
theorem read_multiplexed_data_routes (frames : List (Nat × List Nat))
    (hwf : ∀ fr ∈ frames, fr.1 ≤ 2 ∧ fr.2.length < 2 ^ 32) :
    (read_multiplexed_data (frames.length + 1)
      ⟨oneSeg (muxBytes frames), none⟩ [] =
      some (frameEvents frames, .ok ())) ∧
    (∀ b r1 r2 r3 l1 l2 l3 l4 tail, 3 ≤ b →
      read_multiplexed_data (frames.length + 1)
        ⟨oneSeg (muxBytes frames ++
          b :: r1 :: r2 :: r3 :: l1 :: l2 :: l3 :: l4 :: tail), none⟩ [] =
      some (frameEvents frames, .error (.invalidStream b))) ∧
    (∀ e, read_multiplexed_data (frames.length + 1)
      ⟨oneSeg (muxBytes frames), some e⟩ [] =
      some (frameEvents frames, .error (.networkError (.other e)))) := by
  refine ⟨?_, ?_, ?_⟩
  · have h := read_multiplexed_data_frames frames 1 [] none hwf []
    rw [List.append_nil] at h
    rw [h]
    rfl
  · intro b r1 r2 r3 l1 l2 l3 l4 tail hb
    have h := read_multiplexed_data_frames frames 1
      (b :: r1 :: r2 :: r3 :: l1 :: l2 :: l3 :: l4 :: tail) none hwf []
    rw [h]
    obtain ⟨m, rfl⟩ : ∃ m, b = m + 3 := ⟨b - 3, by omega⟩
    have hsplit : (m + 3) :: r1 :: r2 :: r3 :: l1 :: l2 :: l3 :: l4 :: tail =
        [m + 3, r1, r2, r3, l1, l2, l3, l4] ++ tail := rfl
    rw [read_multiplexed_data, hsplit,
      show (8 : Nat) = [m + 3, r1, r2, r3, l1, l2, l3, l4].length from rfl,
      msReadExact_seg]
    rfl
  · intro e
    have h := read_multiplexed_data_frames frames 1 [] (some e) hwf []
    rw [List.append_nil] at h
    rw [h]
    rfl

/-- Witness for C3: two stdout frames around one stderr frame, then a frame
with type byte 7. -/
theorem read_multiplexed_data_routes_witness :
    (read_multiplexed_data 4
      ⟨oneSeg (muxBytes [(1, bytes "hi"), (2, bytes "e"), (0, [])]), none⟩ [] =
      some (frameEvents [(1, bytes "hi"), (2, bytes "e"), (0, [])], .ok ())) ∧
    (read_multiplexed_data 4
      ⟨oneSeg (muxBytes [(1, bytes "hi"), (2, bytes "e"), (0, [])] ++
        7 :: 0 :: 0 :: 0 :: 0 :: 0 :: 0 :: 1 :: [65]), none⟩ [] =
      some (frameEvents [(1, bytes "hi"), (2, bytes "e"), (0, [])],
        .error (.invalidStream 7))) :=
  ⟨(read_multiplexed_data_routes [(1, bytes "hi"), (2, bytes "e"), (0, [])]
      (by decide)).1,
   (read_multiplexed_data_routes [(1, bytes "hi"), (2, bytes "e"), (0, [])]
      (by decide)).2.1 7 0 0 0 0 0 0 1 [65] (by decide)⟩

/-- The first four bytes are unchanged when the terminal CRLFCRLF (plus
trailing data) replaces the probe suffix CRLF-CR. -/
theorem take4_agree (b : Nat) (H0 T : List Nat) :
    (b :: (H0 ++ 13 :: 10 :: 13 :: 10 :: T)).take 4 =
      (b :: (H0 ++ [13, 10, 13])).take 4 := by
  match H0 with
  | [] => rfl
  | [_] => rfl
  | [_, _] => rfl
  | _ :: _ :: _ :: _ => rfl

/-- Scanning from position `i` shifts the found index by `i`. -/
theorem findHeaderEndFrom_shift (l : List Nat) :
    ∀ i, findHeaderEndFrom i l = (findHeaderEndFrom 0 l).map (i + ·) := by
  induction l with
  | nil => intro i; rfl
  | cons b rest ih =>
    intro i
    rw [findHeaderEndFrom, findHeaderEndFrom]
    by_cases hc : (b :: rest).take 4 = [13, 10, 13, 10]
    · rw [if_pos hc, if_pos hc]
      simp
    · rw [if_neg hc, if_neg hc, ih (i + 1), ih 1, Option.map_map]
      cases findHeaderEndFrom 0 rest with
      | none => simp
      | some v =>
        simp only [Option.map_some', Option.some.injEq, Function.comp]
        omega

/-- If a header block has no premature CRLFCRLF (no blank line before its
terminal one), the first CRLFCRLF of the block followed by anything is the
terminal one. -/
theorem findHeaderEnd_terminal (H0 T : List Nat)
    (h : findHeaderEnd (H0 ++ [13, 10, 13]) = none) :
    findHeaderEnd (H0 ++ 13 :: 10 :: 13 :: 10 :: T) = some (H0.length + 4) := by
  induction H0 with
  | nil => simp [findHeaderEnd, findHeaderEndFrom]
  | cons b H0 ih =>
    unfold findHeaderEnd at h ih ⊢
    rw [List.cons_append, findHeaderEndFrom] at h
    by_cases hc : (b :: (H0 ++ [13, 10, 13])).take 4 = [13, 10, 13, 10]
    · rw [if_pos hc] at h
      exact absurd h (by simp)
    · rw [if_neg hc, findHeaderEndFrom_shift] at h
      have h' : findHeaderEndFrom 0 (H0 ++ [13, 10, 13]) = none := by
        cases hfe : findHeaderEndFrom 0 (H0 ++ [13, 10, 13]) with
        | none => rfl
        | some v => rw [hfe] at h; exact absurd h (by simp)
      rw [List.cons_append, findHeaderEndFrom, take4_agree, if_neg hc,
        findHeaderEndFrom_shift, ih h', Option.map_some']
      simp only [List.length_cons, Option.some.injEq]
      omega

/-- A complete well-formed header block followed by anything parses as
`Complete` at the block boundary, with the block's code, reason and
headers. -/
theorem httparseResponse_complete (H0 T : List Nat) (code : Nat)
    (reason : List Nat) (hdrs : List (List Nat × List Nat))
    (hnoEnd : findHeaderEnd (H0 ++ [13, 10, 13]) = none)
    (hparse : parseHeaderBlock (H0 ++ [13, 10, 13, 10]) = some (code, reason, hdrs))
    (hhdrs : hdrs.length ≤ 16) :
    httparseResponse ((H0 ++ [13, 10, 13, 10]) ++ T) =
      .complete (H0.length + 4) code reason hdrs := by
  unfold httparseResponse
  have hassoc : (H0 ++ [13, 10, 13, 10]) ++ T = H0 ++ 13 :: 10 :: 13 :: 10 :: T := by
    simp
  rw [hassoc, findHeaderEnd_terminal H0 T hnoEnd]
  have htake : (H0 ++ 13 :: 10 :: 13 :: 10 :: T).take (H0.length + 4) =
      H0 ++ [13, 10, 13, 10] := by
    have : H0 ++ 13 :: 10 :: 13 :: 10 :: T = (H0 ++ [13, 10, 13, 10]) ++ T := by
      simp
    rw [this]
    exact List.take_left' (by simp)
  simp [htake, hparse, hhdrs]

/-- Writing into the fresh zero buffer at position 0. -/
theorem writeAt_zeroBuffer (d : List Nat) :
    writeAt zeroBuffer 0 d = d ++ List.replicate (1024 - d.length) 0 := by
  unfold writeAt zeroBuffer
  rw [List.take_zero, List.drop_replicate, List.nil_append, Nat.zero_add]

/-- A first socket read that fits the buffer delivers its whole segment. -/
theorem msRead_first (seg1 : List Nat) (srest : List (List Nat))
    (f : Option Nat) (hlen : seg1.length ≤ 1024) :
    msRead ⟨seg1 :: srest, f⟩ (1024 - 0) = .ok (seg1, ⟨srest, f⟩) := by
  have ht : seg1.take 1024 = seg1 := List.take_of_length_le hlen
  have hd : seg1.drop 1024 = [] := List.drop_eq_nil_of_le hlen
  simp [msRead, ht, hd]

/-- If the zero-padded buffer parses `Complete` after the first read, the
header loop stops there with the parsed state. -/
theorem headerLoop_complete (seg1 : List Nat) (srest : List (List Nat))
    (f : Option Nat) (fuel h code : Nat) (reason : List Nat)
    (hdrs : List (List Nat × List Nat)) (hlen : seg1.length ≤ 1024)
    (hparse : httparseResponse (seg1 ++ List.replicate (1024 - seg1.length) 0) =
      .complete h code reason hdrs) :
    headerLoop (fuel + 1) zeroBuffer 0 ⟨seg1 :: srest, f⟩ =
      some (.ok ⟨seg1 ++ List.replicate (1024 - seg1.length) 0, seg1.length,
        h, code, reason, hdrs, ⟨srest, f⟩⟩) := by
  rw [headerLoop, msRead_first seg1 srest f hlen]
  simp only [writeAt_zeroBuffer, Nat.zero_add, hparse]

/-- If the zero-padded buffer fails to parse after the first read, the header
loop stops with an HTTP error. -/
theorem headerLoop_err (seg1 : List Nat) (srest : List (List Nat))
    (f : Option Nat) (fuel : Nat) (hlen : seg1.length ≤ 1024)
    (hparse : httparseResponse (seg1 ++ List.replicate (1024 - seg1.length) 0) =
      .err) :
    headerLoop (fuel + 1) zeroBuffer 0 ⟨seg1 :: srest, f⟩ =
      some (.error .httpError) := by
  rw [headerLoop, msRead_first seg1 srest f hlen]
  simp only [writeAt_zeroBuffer, Nat.zero_add, hparse]

/-- C4 (amended): once the attach handshake headers are parsed, a
non-informational status makes `attach_container` fail with the
protocol-classification error `InvalidResponse(status, reason)` and spawn no
pumping thread; an informational status with a content type other than the
two recognised values fails with `InvalidResponse(status, "Unrecognized
content-type from attach: " ++ ct)` when the content-type value is valid
UTF-8, and panics (crashing the process before any spawn) when it is not;
and whenever `attach_container` spawns anything, the session was classified
(`read_response` succeeded) and the spawns are exactly the reader (tagged
raw/multiplexed) and the writer. -/
theorem attach_classification (fuel : Nat) (s : MStream) (st : HState)
    (hloop : headerLoop fuel zeroBuffer 0 s = some (.ok st))
    (hlo : 100 ≤ st.scode) (hhi : st.scode < 1000) :
    (¬ st.scode ≤ 199 → attach_container fuel s =
      some ([], .err (.invalidResponse st.scode st.reason))) ∧
    (st.scode ≤ 199 →
      ((get_header_value st.headers contentTypeBytes).getD []) ≠ muxContentType →
      ((get_header_value st.headers contentTypeBytes).getD []) ≠ rawContentType →
      validUTF8 ((get_header_value st.headers contentTypeBytes).getD []) = true →
      attach_container fuel s = some ([], .err (.invalidResponse st.scode
        (bytes "Unrecognized content-type from attach: " ++
          ((get_header_value st.headers contentTypeBytes).getD []))))) ∧
    (st.scode ≤ 199 →
      ((get_header_value st.headers contentTypeBytes).getD []) ≠ muxContentType →
      ((get_header_value st.headers contentTypeBytes).getD []) ≠ rawContentType →
      validUTF8 ((get_header_value st.headers contentTypeBytes).getD []) = false →
      attach_container fuel s = some ([], .crash)) ∧
    (∀ fuel' s' evs res, attach_container fuel' s' = some (evs, res) →
      evs ≠ [] → ∃ r, read_response fuel' s' = some (.ok r) ∧
        evs = [.spawnRead r.isMultiplexed, .spawnWrite] ∧ res = .ok) := by
  refine ⟨?_, ?_, ?_, ?_⟩
  · intro hni
    simp [attach_container, read_response, hloop, hlo, hhi, hni]
  · intro hle hm hr hvu
    simp [attach_container, read_response, hloop, hlo, hhi, hle, hm, hr, hvu]
  · intro hle hm hr hvu
    simp [attach_container, read_response, hloop, hlo, hhi, hle, hm, hr, hvu]
  · intro fuel' s' evs res hat hne
    unfold attach_container at hat
    cases hrr : read_response fuel' s' with
    | none => rw [hrr] at hat; exact absurd hat (by simp)
    | some x =>
      cases x with
      | crash =>
        rw [hrr] at hat
        simp only [Option.some.injEq, Prod.mk.injEq] at hat
        exact absurd hat.1.symm hne
      | err e =>
        rw [hrr] at hat
        simp only [Option.some.injEq, Prod.mk.injEq] at hat
        exact absurd hat.1.symm hne
      | ok r =>
        rw [hrr] at hat
        simp only [Option.some.injEq, Prod.mk.injEq] at hat
        exact ⟨r, rfl, hat.1.symm, hat.2.symm⟩

/-- Witness for C4: an informational attach response with content type
`text/plain` — unrecognised but valid UTF-8 — fails classification with the
`InvalidResponse` protocol error and spawns nothing. -/
theorem attach_classification_witness :
    attach_container 1 ⟨[attachBadCTBytes], none⟩ =
      some ([], .err (.invalidResponse 101
        (bytes "Unrecognized content-type from attach: " ++ bytes "text/plain"))) :=
  (attach_classification 1 ⟨[attachBadCTBytes], none⟩
    ⟨attachBadCTBytes ++ List.replicate (1024 - attachBadCTBytes.length) 0,
     attachBadCTBytes.length, 51, 101, bytes "UPGRADED",
     [(bytes "Content-Type", bytes "text/plain")], ⟨[], none⟩⟩
    (headerLoop_complete _ _ _ 0 _ _ _ _ (by decide) (by decide))
    (by decide) (by decide)).2.1
    (by decide) (by decide) (by decide) (by decide)

/-- C4 counterexample: an informational attach response whose content-type
value is the single byte 0xFF — not valid UTF-8 — makes the program panic in
`String::from_utf8(content_type).expect("UTF-8")` (docker_client.rs line
212) instead of returning the protocol-classification error, and no pumping
thread is spawned. -/
theorem attach_nonutf8_content_type_counterexample :
    attach_container 1 ⟨[attachBadUTF8Bytes], none⟩ = some ([], .crash) := by
  rfl

/-- A NUL byte is rejected in every scanner state: the zero padding of a
partially filled buffer can never be part of a valid response prefix. -/
theorem scanStep_zero (st : ScanSt) : scanStep st 0 = none := by
  cases st with
  | ver k =>
    by_cases h7 : k < 7
    · interval_cases k <;> simp [scanStep, versionBytes]
    · by_cases h8 : k = 7
      · simp [scanStep, h8]
      · by_cases h9 : k = 8 <;> simp [scanStep, h7, h8, h9]
  | code k =>
    by_cases h3 : k < 3 <;> simp [scanStep, h3, digitByte]
  | reason => simp [scanStep, valueByte]
  | nl1 => simp [scanStep]
  | lineStart => simp [scanStep, tokenByte]
  | name => simp [scanStep, tokenByte]
  | afterColon => simp [scanStep, valueByte]
  | value => simp [scanStep, valueByte]
  | nl2 => simp [scanStep]

/-- A buffer containing a NUL byte is never a valid incomplete prefix. -/
theorem scanFrom_zero (x y : List Nat) : ∀ st, scanFrom st (x ++ 0 :: y) = false := by
  induction x with
  | nil =>
    intro st
    simp [scanFrom, scanStep_zero st]
  | cons a x ih =>
    intro st
    rw [List.cons_append, scanFrom]
    cases scanStep st a with
    | none => rfl
    | some st' => exact ih st'

/-- An unfilled buffer (data shorter than 1024 bytes, zero padding) with no
complete header block parses as an error, never as `Partial`. -/
theorem httparseResponse_padded_err (d : List Nat) (hlt : d.length < 1024)
    (hnoe : findHeaderEnd (d ++ List.replicate (1024 - d.length) 0) = none) :
    httparseResponse (d ++ List.replicate (1024 - d.length) 0) = .err := by
  unfold httparseResponse
  rw [hnoe]
  obtain ⟨k, hk⟩ : ∃ k, 1024 - d.length = k + 1 :=
    ⟨1024 - d.length - 1, by omega⟩
  rw [hk, List.replicate_succ]
  simp [scanIncomplete, scanFrom_zero]

/-- Once the buffer is full and still parses `Partial`, every further
iteration reads zero bytes and reparses the same buffer: the loop never
returns. -/
theorem headerLoop_stuck (c : List Nat) (hc : c.length = 1024)
    (hparse : httparseResponse c = .incomplete) :
    ∀ fuel s, headerLoop fuel c 1024 s = none := by
  intro fuel
  induction fuel with
  | zero => intro s; rfl
  | succ n ih =>
    intro s
    rw [headerLoop]
    have hread : msRead s (1024 - 1024) = .ok ([], s) := by
      simp [msRead]
    rw [hread]
    have hw : writeAt c 1024 [] = c := by
      unfold writeAt
      rw [List.take_of_length_le (by omega), List.drop_eq_nil_of_le (by omega)]
      simp
    simp only [hw, List.length_nil, Nat.add_zero, hparse]
    exact ih s

/-- C9 (amended): the header-accumulation loop fails to terminate exactly in
the full-buffer case — a first read delivering 1024 bytes that parse
`Partial` (for instance the first kilobyte of an oversized header block)
leaves every subsequent iteration reading zero bytes, for any remaining
segments and any terminal state — whereas a peer close before the header
block is complete leaves NUL padding in the buffer, makes the parse fail,
and terminates the loop (and `make_request`) with an HTTP error rather than
looping. -/
theorem header_loop_termination (c : List Nat) (rest : List (List Nat))
    (f : Option Nat) (hlen : c.length = 1024)
    (hpart : httparseResponse c = .incomplete) :
    (∀ fuel, headerLoop fuel zeroBuffer 0 ⟨c :: rest, f⟩ = none) ∧
    (∀ d, d.length < 1024 →
      findHeaderEnd (d ++ List.replicate (1024 - d.length) 0) = none →
      headerLoop 1 zeroBuffer 0 ⟨[d], none⟩ = some (.error .httpError) ∧
      make_request 1 ⟨[d], none⟩ = some (.err .httpError)) := by
  constructor
  · intro fuel
    cases fuel with
    | zero => rfl
    | succ n =>
      rw [headerLoop, msRead_first c rest f (by omega)]
      simp only [writeAt_zeroBuffer, hlen, Nat.sub_self, List.replicate_zero,
        List.append_nil, Nat.zero_add, hpart]
      exact headerLoop_stuck c hlen hpart n ⟨rest, f⟩
  · intro d hdlt hnoe
    have herr := httparseResponse_padded_err d hdlt hnoe
    have hl := headerLoop_err d [] none 0 (by omega) herr
    refine ⟨hl, ?_⟩
    unfold make_request
    rw [hl]

/-- Witness for C9: the first kilobyte of an oversized header block keeps the
loop running with the fuel 5 budget, and the ten-byte early-close response
terminates with an HTTP error. -/
theorem header_loop_termination_witness :
    headerLoop 5 zeroBuffer 0 ⟨[longHeaderBytes], none⟩ = none ∧
    make_request 1 ⟨[earlyCloseBytes], none⟩ = some (.err .httpError) :=
  ⟨(header_loop_termination longHeaderBytes [] none (by decide) (by decide)).1 5,
   ((header_loop_termination longHeaderBytes [] none (by decide) (by decide)).2
      earlyCloseBytes (by decide) (by decide)).2⟩

/-- C9 counterexample: the claim says a peer close before the header block is
complete makes the loop read zero bytes forever without surfacing an error;
on the ten-byte early-close input the loop in fact terminates at once and
`make_request` surfaces an HTTP error. -/
theorem header_loop_early_close_counterexample :
    headerLoop 1 zeroBuffer 0 ⟨[earlyCloseBytes], none⟩ =
      some (.error .httpError) ∧
    make_request 1 ⟨[earlyCloseBytes], none⟩ = some (.err .httpError) := by
  constructor <;> rfl

/-- C2 (code bug): `make_request` on a Content-Length response whose 4-byte
body arrives in a second read does not return the body: the read range
`buffer[bytes_read..(content_length - header_size)]` (line 368, where the
intended end is `header_size + content_length`) underflows and the program
panics instead. -/
theorem content_length_second_read_panics :
    make_request 1 ⟨[clHeaderBytes, bytes "true"], none⟩ = some .crash := by
  rfl

/-- Element at position `i` read off a known drop. -/
theorem getD_of_drop : ∀ (i : Nat) (buf : List Nat) (x : Nat) (t : List Nat),
    buf.drop i = x :: t → buf.getD i 0 = x
  | 0, buf, x, t, h => by rw [List.drop_zero] at h; rw [h]; rfl
  | i + 1, [], x, t, h => by simp at h
  | i + 1, b :: bs, x, t, h => by
    rw [List.drop_succ_cons] at h
    rw [List.getD_cons_succ]
    exact getD_of_drop i bs x t h

/-- The chunk-size scan stops at the CR that ends the hex size line. -/
theorem chunkScan_finds (buf : List Nat) (limit : Nat) :
    ∀ (hex : List Nat) (i fuel : Nat) (rest : List Nat),
    buf.drop i = hex ++ 13 :: rest →
    (∀ b ∈ hex, b ≠ 13) →
    i + hex.length ≤ limit →
    i + hex.length < 1024 →
    hex.length < fuel →
    chunkScan buf limit fuel i = some (i + hex.length) := by
  intro hex
  induction hex with
  | nil =>
    intro i fuel rest hdrop hne hlim hidx hfuel
    cases fuel with
    | zero => exact absurd hfuel (by omega)
    | succ f =>
      have hi : ¬ 1024 ≤ i := by simp at hidx; omega
      rw [chunkScan, if_neg hi]
      have hg : buf.getD i 0 = 13 := getD_of_drop i buf 13 rest (by simpa using hdrop)
      have hc : (decide (buf.getD i 0 = 13) || decide (limit < i)) = true := by
        rw [hg]
        simp
      rw [if_pos hc]
      simp
  | cons x hx ih =>
    intro i fuel rest hdrop hne hlim hidx hfuel
    cases fuel with
    | zero => exact absurd hfuel (by omega)
    | succ f =>
      have hi : ¬ 1024 ≤ i := by simp at hidx; omega
      rw [chunkScan, if_neg hi]
      have hg : buf.getD i 0 = x :=
        getD_of_drop i buf x (hx ++ 13 :: rest) (by simpa using hdrop)
      have hx13 : x ≠ 13 := hne x (List.mem_cons_self _ _)
      have hlim' : ¬ limit < i := by simp at hlim; omega
      have hc : ¬ ((decide (buf.getD i 0 = 13) || decide (limit < i)) = true) := by
        rw [hg]
        simp [hx13, hlim']
      rw [if_neg hc]
      have hdrop' : buf.drop (i + 1) = hx ++ 13 :: rest := by
        rw [← List.drop_drop, hdrop]
        rfl
      rw [ih (i + 1) f rest hdrop'
        (fun b hb => hne b (List.mem_cons_of_mem _ hb))
        (by simp at hlim ⊢; omega) (by simp at hidx ⊢; omega)
        (by simp at hfuel; omega)]
      simp only [List.length_cons, Option.some.injEq]
      omega

/-- A read with enough capacity delivers the whole front segment. -/
theorem msRead_all (B : List Nat) (rest : List (List Nat)) (f : Option Nat)
    (cap : Nat) (h : B.length ≤ cap) :
    ∃ s', msRead ⟨B :: rest, f⟩ cap = .ok (B, s') := by
  by_cases hc : cap = 0
  · subst hc
    have hB : B = [] := List.eq_nil_of_length_eq_zero (by omega)
    subst hB
    exact ⟨⟨[] :: rest, f⟩, by simp [msRead]⟩
  · refine ⟨⟨rest, f⟩, ?_⟩
    simp [msRead, hc, List.take_of_length_le h, List.drop_eq_nil_of_le h]

/-- Writing at the fill mark of a partially filled zero-padded buffer. -/
theorem writeAt_mid (X d : List Nat) (m : Nat) :
    writeAt (X ++ List.replicate m 0) X.length d =
      X ++ d ++ List.replicate (m - d.length) 0 := by
  unfold writeAt
  rw [List.take_left, List.drop_append, List.drop_replicate, List.append_assoc]


/-- `make_request` with a successfully parsed header and a valid status code
reduces to the body phase. -/
theorem make_request_of_loop (fuel : Nat) (s : MStream) (st : HState)
    (h : headerLoop fuel zeroBuffer 0 s = some (.ok st))
    (h1 : 100 ≤ st.scode) (h2 : st.scode < 1000) :
    make_request fuel s = some (makeRequestBody st) := by
  unfold make_request
  rw [h]
  simp [h1, h2]

/-- The chunked body phase on a header-loop state whose remaining bytes
arrive in one further read decodes the single chunk exactly. -/
theorem makeRequestBody_chunked (H hex P A B : List Nat) (code : Nat)
    (reason : List Nat) (hdrs : List (List Nat × List Nat))
    (hcl : get_header_value hdrs contentLengthBytes = none)
    (hte : bytesEqCI ((get_header_value hdrs transferEncodingBytes).getD [])
      (bytes "chunked") = true)
    (hhex : ∀ b ∈ hex, b ≠ 13)
    (hsz : fromRadix16Checked hex = some P.length)
    (hsplit : A ++ B = hex ++ 13 :: 10 :: P)
    (htot : H.length + hex.length + 2 + P.length ≤ 1024) :
    makeRequestBody ⟨(H ++ A) ++ List.replicate (1024 - (H ++ A).length) 0,
      (H ++ A).length, H.length, code, reason, hdrs, ⟨[B], none⟩⟩ =
      .ok code (some P) := by
  have hABlen : A.length + B.length = hex.length + 2 + P.length := by
    have := congrArg List.length hsplit
    simp at this
    omega
  have hlenHA : (H ++ A).length = H.length + A.length := List.length_append _ _
  have hBcap : B.length ≤ 1024 - (H ++ A).length := by omega
  obtain ⟨s', hread⟩ := msRead_all B [] none (1024 - (H ++ A).length) hBcap
  simp only [makeRequestBody, hcl, hte]
  rw [hread]
  simp only [Option.getD_none, Nat.lt_irrefl, if_false, if_true]
  rw [writeAt_mid]
  have h1 : (H ++ A) ++ B = H ++ (hex ++ 13 :: 10 :: P) := by
    rw [List.append_assoc, hsplit]
  have hbuf2 : ((H ++ A) ++ B) ++ List.replicate (1024 - (H ++ A).length - B.length) 0 =
      H ++ (hex ++ 13 :: (10 :: (P ++ List.replicate (1024 - (H ++ A).length - B.length) 0))) := by
    rw [h1]
    simp [List.append_assoc]
  rw [hbuf2]
  have hscan := chunkScan_finds
    (H ++ (hex ++ 13 :: (10 :: (P ++ List.replicate (1024 - (H ++ A).length - B.length) 0))))
    ((H ++ A).length + B.length) hex H.length 1025
    (10 :: (P ++ List.replicate (1024 - (H ++ A).length - B.length) 0))
    (List.drop_left _ _) hhex (by omega) (by omega) (by omega)
  rw [hscan]
  have hsub1 : subslice
      (H ++ (hex ++ 13 :: (10 :: (P ++ List.replicate (1024 - (H ++ A).length - B.length) 0))))
      H.length (H.length + hex.length) = hex := by
    unfold subslice
    rw [List.drop_left, Nat.add_sub_cancel_left]
    exact List.take_left _ _
  simp only [hsub1, hsz]
  rw [if_neg (by omega)]
  have hsub2 : subslice
      (H ++ (hex ++ 13 :: (10 :: (P ++ List.replicate (1024 - (H ++ A).length - B.length) 0))))
      (H.length + hex.length + 2) (H.length + hex.length + 2 + P.length) = P := by
    unfold subslice
    have hre : H ++ (hex ++ 13 :: (10 :: (P ++ List.replicate (1024 - (H ++ A).length - B.length) 0))) =
        ((H ++ hex) ++ [13, 10]) ++ (P ++ List.replicate (1024 - (H ++ A).length - B.length) 0) := by
      simp [List.append_assoc]
    rw [hre, List.drop_left' (by simp; try omega), Nat.add_sub_cancel_left]
    exact List.take_left _ _
  rw [hsub2]

/-- C1 (amended): the chunked decoder of `make_request` reconstructs the
original single-chunk payload exactly when the whole response fits the
1024-byte buffer, the first socket read delivers at least the complete
header block, and the remaining chunk-size line and payload arrive in at
most one further read (split `A` then `B` at or after the header boundary).
Other splits diverge (`make_request_chunked_counterexample`): a split inside
the header block fails with an HTTP parse error, while a split of the
remainder across two or more further reads returns a silently zero-padded
body. -/
theorem make_request_chunked_single_chunk
    (H0 hex P A B : List Nat) (code : Nat) (reason : List Nat)
    (hdrs : List (List Nat × List Nat))
    (hnoEnd : findHeaderEnd (H0 ++ [13, 10, 13]) = none)
    (hparse : parseHeaderBlock (H0 ++ [13, 10, 13, 10]) = some (code, reason, hdrs))
    (hhdrs : hdrs.length ≤ 16)
    (hcode1 : 100 ≤ code) (hcode2 : code < 1000)
    (hcl : get_header_value hdrs contentLengthBytes = none)
    (hte : bytesEqCI ((get_header_value hdrs transferEncodingBytes).getD [])
      (bytes "chunked") = true)
    (hhex : ∀ b ∈ hex, b ≠ 13)
    (hsz : fromRadix16Checked hex = some P.length)
    (hsplit : A ++ B = hex ++ 13 :: 10 :: P)
    (htot : H0.length + 4 + hex.length + 2 + P.length ≤ 1024) :
    make_request 1 ⟨[(H0 ++ [13, 10, 13, 10]) ++ A, B], none⟩ =
      some (.ok code (some P)) := by
  have hABlen : A.length + B.length = hex.length + 2 + P.length := by
    have := congrArg List.length hsplit
    simp at this
    omega
  have hseglen : ((H0 ++ [13, 10, 13, 10]) ++ A).length ≤ 1024 := by
    simp
    omega
  have hcompl : httparseResponse (((H0 ++ [13, 10, 13, 10]) ++ A) ++
      List.replicate (1024 - ((H0 ++ [13, 10, 13, 10]) ++ A).length) 0) =
      .complete (H0.length + 4) code reason hdrs := by
    rw [List.append_assoc (H0 ++ [13, 10, 13, 10])]
    exact httparseResponse_complete H0 _ code reason hdrs hnoEnd hparse hhdrs
  have hloop : headerLoop 1 zeroBuffer 0
      ⟨[(H0 ++ [13, 10, 13, 10]) ++ A, B], none⟩ =
      some (.ok ⟨((H0 ++ [13, 10, 13, 10]) ++ A) ++
        List.replicate (1024 - ((H0 ++ [13, 10, 13, 10]) ++ A).length) 0,
        ((H0 ++ [13, 10, 13, 10]) ++ A).length, H0.length + 4, code, reason,
        hdrs, ⟨[B], none⟩⟩) :=
    headerLoop_complete ((H0 ++ [13, 10, 13, 10]) ++ A) [B] none 0
      (H0.length + 4) code reason hdrs hseglen hcompl
  rw [make_request_of_loop 1 _ _ hloop hcode1 hcode2]
  have hHlen : (H0 ++ [13, 10, 13, 10] : List Nat).length = H0.length + 4 := by
    simp
  rw [← hHlen]
  rw [makeRequestBody_chunked (H0 ++ [13, 10, 13, 10]) hex P A B code reason
    hdrs hcl hte hhex hsz hsplit (by simp; omega)]

/-- C1 counterexample: two non-conforming splits diverge from the claim in
different ways.  (i) The full chunked response delivered one byte per socket
read — the claim's N = total case — makes `make_request` fail with an HTTP
parse error instead of returning the payload: after the first one-byte read,
httparse sees the prefix followed by NUL padding and rejects the buffer.
(ii) The same response split after the header block across two further reads
(chunk-size line, then the payload) returns the silently zero-padded body
`[0, 0, 0, 0]` instead of `true`: the code performs exactly one extra read
and slices the chunk payload without checking that it has arrived. -/
theorem make_request_chunked_counterexample :
    make_request 1 ⟨chunkedResponseBytes.map (fun b => [b]), none⟩ =
      some (.err .httpError) ∧
    make_request 1 ⟨[chunkedHeaderBytes, bytes "4", bytes "\r\ntrue"], none⟩ =
      some (.ok 200 (some [0, 0, 0, 0])) :=
  ⟨rfl, rfl⟩

/-- Witness for C1 at a concrete single-chunk JSON response delivered in one
read. -/
theorem make_request_chunked_single_chunk_witness :
    make_request 1 ⟨[(bytes "HTTP/1.1 200 OK\r\nContent-Type: application/json\r\nTransfer-Encoding: chunked" ++
      [13, 10, 13, 10]) ++ bytes "4\r\ntrue", []], none⟩ =
      some (.ok 200 (some (bytes "true"))) :=
  make_request_chunked_single_chunk
    (bytes "HTTP/1.1 200 OK\r\nContent-Type: application/json\r\nTransfer-Encoding: chunked")
    (bytes "4") (bytes "true") (bytes "4\r\ntrue") [] 200 (bytes "OK")
    [(bytes "Content-Type", bytes "application/json"),
     (bytes "Transfer-Encoding", bytes "chunked")]
    (by decide) (by decide) (by decide) (by decide) (by decide) (by decide)
    (by decide) (by decide) (by decide) (by decide) (by decide)
